import Mathlib

/-!
Shallow embedding of the TRINCI core node engine (davxy/trinci-core):
data model and operations of the Pool, Dispatcher, Aligner and Executor
components, translated from the Rust sources, together with theorems
settling the specification claims.

Conventions:
* machine integers (`u64`, `u32`, `usize`) are modelled as `Nat` (none of
  the embedded code paths rely on wrap-around);
* byte strings (`Vec<u8>`) are `List Nat`;
* cryptographic hashes are abstracted as `Nat` values;
* Rust `HashMap`/map-like state is modelled as association lists in
  insertion order, with the operations the code performs on them.
-/

namespace Trinci

/-- Bytes of a Rust string, as produced by `String::as_bytes`. -/
def strBytes (s : String) : List Nat :=
  s.toUTF8.toList.map (fun b => b.toNat)

/-- Association-list lookup (model of map `get`). -/
def alFind {α : Type} (m : List (Nat × α)) (k : Nat) : Option α :=
  match m with
  | [] => none
  | (k0, v) :: rest => if k0 = k then some v else alFind rest k

/-- Association-list insert, replacing any previous binding of the key
(model of map `insert`). -/
def alInsert {α : Type} (m : List (Nat × α)) (k : Nat) (v : α) : List (Nat × α) :=
  match m with
  | [] => [(k, v)]
  | (k0, v0) :: rest => if k0 = k then (k, v) :: rest else (k0, v0) :: alInsert rest k v

/-- Association-list removal of every binding of the key (model of map `remove`). -/
def alRemove {α : Type} (m : List (Nat × α)) (k : Nat) : List (Nat × α) :=
  match m with
  | [] => []
  | (k0, v0) :: rest => if k0 = k then alRemove rest k else (k0, v0) :: alRemove rest k

theorem alFind_insert_self {α : Type} (m : List (Nat × α)) (k : Nat) (v : α) :
    alFind (alInsert m k v) k = some v := by
  induction m with
  | nil => simp [alInsert, alFind]
  | cons e rest ih =>
    by_cases h : e.1 = k
    · simp [alInsert, h, alFind]
    · simp [alInsert, h, alFind, ih]

theorem alFind_insert_ne {α : Type} (m : List (Nat × α)) (k k2 : Nat) (v : α)
    (h : k ≠ k2) : alFind (alInsert m k v) k2 = alFind m k2 := by
  induction m with
  | nil => simp [alInsert, alFind, h]
  | cons e rest ih =>
    by_cases he : e.1 = k
    · simp [alInsert, he, alFind, h]
    · simp [alInsert, he, alFind, ih]

theorem alFind_remove_self {α : Type} (m : List (Nat × α)) (k : Nat) :
    alFind (alRemove m k) k = none := by
  induction m with
  | nil => simp [alRemove, alFind]
  | cons e rest ih =>
    by_cases h : e.1 = k
    · simpa [alRemove, alFind, h] using ih
    · simp [alRemove, alFind, h, ih]

theorem alFind_remove_ne {α : Type} (m : List (Nat × α)) (k k2 : Nat)
    (h : k ≠ k2) : alFind (alRemove m k) k2 = alFind m k2 := by
  induction m with
  | nil => simp [alRemove, alFind]
  | cons e rest ih =>
    by_cases he : e.1 = k
    · have he2 : e.1 ≠ k2 := he ▸ h
      simp [alRemove, alFind, he, he2, ih, h]
    · by_cases he2 : e.1 = k2
      · have hk : k2 ≠ k := fun hh => h hh.symm
        simp [alRemove, alFind, he, he2, ih, hk]
      · simp [alRemove, alFind, he, he2, ih]

/-! ## Error kinds (`src/error.rs`, as used by the embedded modules) -/

/-- Semantic error kinds of the core (§7 of the spec; the subset the embedded
code paths construct). -/
inductive ErrKind where
  | malformedData
  | invalidSignature
  | brokenIntegrity
  | badNetwork
  | duplicatedUnconfirmedTx
  | duplicatedConfirmedTx
  | tooLargeTx
  | resourceNotFound
  | notImplemented
  | wrongTxType
  | other
  deriving DecidableEq, Repr

/-- An error value: kind plus free-form context message
(model of `Error { kind, .. }` with `new_ext` context). -/
structure ErrorT where
  kind : ErrKind
  msg : String
  deriving DecidableEq, Repr

/-! ## Executor: fuel accounting (`src/blockchain/executor.rs`) -/

/-- `FUEL_LIMIT` constant of `base/schema.rs` (value `1000`,
as fixed by the schema test module and used by the executor). -/
def FUEL_LIMIT : Nat := 1000

/-- `Executor::calculate_burned_fuel` (executor.rs lines 221-230):
translates wasm-machine fuel into TRINCI fuel;
`0` maps to `0`, anything else maps to the constant `FUEL_LIMIT`. -/
def calculate_burned_fuel (wm_fuel : Nat) : Nat :=
  if wm_fuel = 0 then 0 else FUEL_LIMIT

/-- Return value of the configured burn-fuel contract method
(`ConsumeFuelReturns` in executor.rs). -/
structure ConsumeFuelReturns where
  success : Bool
  units : Nat
  deriving DecidableEq, Repr

/-- Arguments of the burn-fuel step (`BurnFuelArgs` in executor.rs);
the account is abstracted to a numeric id. -/
structure BurnFuelArgs where
  account : Nat
  fuel_to_burn : Nat
  fuel_limit : Nat
  deriving DecidableEq, Repr

/-- Outcome of one `call_burn_fuel` invocation, as consumed by the callers:
`ok r` models `Ok(bytes)` deserializing to `r`; `okUndecodable` models
`Ok(bytes)` on which `rmp_deserialize::<ConsumeFuelReturns>` fails;
`err` models `Err(_)` (service missing, contract fault, ...).
The wasm machine itself is outside the embedded core, so the invocation is
a function parameter from burned-units argument to outcome. -/
inductive WmCallResult where
  | ok (r : ConsumeFuelReturns)
  | okUndecodable
  | err
  deriving DecidableEq, Repr

/-- The fuel amount actually passed to the burn call by `try_burn_fuel`:
capped at the transaction fuel limit. -/
def burnCallAmount (args : BurnFuelArgs) : Nat :=
  if args.fuel_limit < args.fuel_to_burn then args.fuel_limit else args.fuel_to_burn

/-- `Executor::try_burn_fuel` (executor.rs lines 298-343). Returns
`(global_result, global_burned_fuel)`. An empty burn-fuel method name means
fuel burning is disabled and always succeeds with zero burned units. -/
def try_burn_fuel (burn_fuel_method : String) (call : Nat → WmCallResult)
    (args : BurnFuelArgs) : Bool × Nat :=
  if burn_fuel_method = "" then (true, 0)
  else
    let max_fuel_result : Bool := ! decide (args.fuel_limit < args.fuel_to_burn)
    match call (burnCallAmount args) with
    | .ok r => (r.success && max_fuel_result, r.units)
    | .okUndecodable => (false, 0)
    | .err => (false, 0)

/-- Smart-contract event (`SmartContractEvent` in base/schema.rs). -/
structure SmartContractEvent where
  event_tx : Nat
  emitter_account : String
  event_name : String
  event_data : List Nat
  deriving DecidableEq, Repr

/-- Transaction execution receipt (`Receipt` in base/schema.rs). -/
structure Receipt where
  height : Nat
  index : Nat
  burned_fuel : Nat
  success : Bool
  returns : List Nat
  events : Option (List SmartContractEvent)
  deriving DecidableEq, Repr

/-- Result of the burn-fuel tail of `Executor::exec_transaction`
(executor.rs lines 816-855): the final receipt, whether the fork was rolled
back by this step, and the units argument of the retry burn call, if one
was made. -/
structure BurnPhaseResult where
  receipt : Receipt
  rolledBack : Bool
  retryCallArg : Option Nat
  deriving DecidableEq, Repr

/-- Burn-fuel tail of `Executor::exec_transaction` (executor.rs lines
816-855): after the per-kind handler produced `receipt` and `args`, try to
burn fuel from the caller account; on success patch the receipt's
`burned_fuel`; on failure roll the fork back, call the burn method again
with the units reported by the first call (zeroing the amount if that retry
errors) and emit a failure receipt with returns `"error burning fuel"`,
keeping the events of the original receipt. -/
def exec_transaction_burn (burn_fuel_method : String) (call : Nat → WmCallResult)
    (args : BurnFuelArgs) (receipt : Receipt) : BurnPhaseResult :=
  let res := try_burn_fuel burn_fuel_method call args
  if res.1 then
    { receipt := { receipt with burned_fuel := res.2 }, rolledBack := false,
      retryCallArg := none }
  else
    let burned := match call res.2 with
      | .err => 0
      | _ => res.2
    { receipt :=
        { height := receipt.height, index := receipt.index, burned_fuel := burned,
          success := false, returns := strBytes "error burning fuel",
          events := receipt.events },
      rolledBack := true, retryCallArg := some res.2 }

/-! ## Pool (`src/blockchain/pool.rs` shape, as used by the embedded code) -/

/-- A transaction as stored in the pool: its primary hash plus an abstract
body payload distinguishing different transactions with any hash. -/
structure PoolTx where
  phash : Nat
  body : Nat
  deriving DecidableEq, Repr

/-- `BlockInfo` of the confirmed pool (pool.rs, as constructed by
dispatcher.rs and executor.rs): optional block hash, validator, signature,
transaction-hash list, and timestamp. -/
structure BlockInfo where
  hash : Option Nat
  validator : Option Nat
  signature : Option (List Nat)
  txs_hashes : Option (List Nat)
  timestamp : Nat
  deriving DecidableEq, Repr

/-- The Pool: `txs` maps a transaction hash to an optional full body
(`none` body = placeholder inserted during alignment), `unconfirmed` is the
ordered queue of hashes awaiting inclusion, `confirmed` maps heights to
block infos. -/
structure Pool where
  txs : List (Nat × Option PoolTx)
  unconfirmed : List Nat
  confirmed : List (Nat × BlockInfo)
  deriving DecidableEq, Repr

/-- Outcomes of the validation steps preceding the pool update in
`Dispatcher::put_transaction_internal`; the checks themselves (serialized
size bound, signature verification, integrity, configured network, presence
in the store) depend on collaborators outside the pool, so they enter the
model as booleans. -/
structure PutChecks where
  sizeOk : Bool
  verifyOk : Bool
  integrityOk : Bool
  networkOk : Bool
  inDb : Bool
  deriving DecidableEq, Repr

/-- `Dispatcher::put_transaction_internal` (dispatcher.rs lines 148-185):
validation pipeline followed by the pool update. Returns the result
produced for the submitter together with the updated pool. -/
def put_transaction_internal (checks : PutChecks) (pool : Pool) (tx : PoolTx) :
    Except ErrKind Nat × Pool :=
  if ! checks.sizeOk then (.error .tooLargeTx, pool)
  else if ! checks.verifyOk then (.error .invalidSignature, pool)
  else if ! checks.integrityOk then (.error .brokenIntegrity, pool)
  else if ! checks.networkOk then (.error .badNetwork, pool)
  else if checks.inDb then (.error .duplicatedConfirmedTx, pool)
  else
    match alFind pool.txs tx.phash with
    | none =>
        (.ok tx.phash,
          { pool with txs := alInsert pool.txs tx.phash (some tx),
                      unconfirmed := pool.unconfirmed ++ [tx.phash] })
    | some none =>
        (.ok tx.phash, { pool with txs := alInsert pool.txs tx.phash (some tx) })
    | some (some _) =>
        if tx.phash ∈ pool.unconfirmed then (.error .duplicatedUnconfirmedTx, pool)
        else (.error .duplicatedConfirmedTx, pool)

/-- The per-hash pool update performed when a confirmed block's transaction
hashes are observed (dispatcher.rs lines 411-420 and the identical loops in
aligner.rs): remove the hash from `unconfirmed` and insert a body-less
placeholder into `txs` when no entry exists. -/
def note_block_hash (pool : Pool) (h : Nat) : Pool :=
  { txs :=
      if (alFind pool.txs h).isSome then pool.txs else alInsert pool.txs h none,
    unconfirmed :=
      if h ∈ pool.unconfirmed then pool.unconfirmed.filter (fun x => x ≠ h)
      else pool.unconfirmed,
    confirmed := pool.confirmed }

/-- Fold of `note_block_hash` over a block's transaction-hash list. -/
def note_block_hashes (pool : Pool) (hashes : List Nat) : Pool :=
  hashes.foldl note_block_hash pool

/-- Insertion of an observed confirmed block into the pool (dispatcher.rs
lines 410-428; the aligner performs the same update): note the transaction
hashes, then insert the `BlockInfo` at the block's height. -/
def insert_confirmed_block (pool : Pool) (height : Nat) (bhash : Nat)
    (validator : Option Nat) (signature : List Nat) (hashes : List Nat)
    (timestamp : Nat) : Pool :=
  let pool1 := note_block_hashes pool hashes
  { pool1 with
      confirmed := alInsert pool1.confirmed height
        { hash := some bhash, validator := validator, signature := some signature,
          txs_hashes := some hashes, timestamp := timestamp } }

/-- A sequence of transaction admissions applied to the pool, ignoring the
per-call results (models dispatcher admissions interleaved with executor
activity). -/
def applyPuts (ops : List (PutChecks × PoolTx)) (pool : Pool) : Pool :=
  ops.foldl (fun p op => (put_transaction_internal op.1 p op.2).2) pool

/-! ## Executor: block execution loop (`src/blockchain/executor.rs`) -/

/-- Outcome parameters of `Executor::exec_block` that are decided outside
the pool: whether the block signature and validator checks pass (only
relevant when a signature is present), and whether the final store merge
succeeds. The locally computed block hash is abstracted as a value. -/
structure ExecBlockEnv where
  sigOk : Bool
  validatorOk : Bool
  computedHash : Nat
  mergeOk : Bool
  deriving DecidableEq, Repr

/-- `Executor::exec_block` (executor.rs lines 901-1054), at the granularity
of its effect on the main store: transactions run on a fork (abstracted as
the candidate store value `fork`); the signature/validator checks and the
expected-hash comparison error out before anything reaches the main store;
the final `fork_merge` either replaces the store contents or fails leaving
the store unchanged. `checked` is true when the incoming block carried both
a validator and a signature (the code only verifies them in that case). -/
def exec_block (env : ExecBlockEnv) (expHash : Option Nat) (checked : Bool)
    (store fork : Nat) : Except String Nat × Nat :=
  if checked && ! env.sigOk then (.error "bad block signature", store)
  else if checked && ! env.validatorOk then
    (.error "unexpected block validator", store)
  else
    let proceed : Except String Nat × Nat :=
      if env.mergeOk then (.ok env.computedHash, fork)
      else (.error "merge error", store)
    match expHash with
    | some e => if e ≠ env.computedHash then (.error "unexpected block hash", store)
                else proceed
    | none => proceed

/-- Result of one iteration of the `Executor::run` loop. -/
structure RunStepResult where
  pool : Pool
  store : Nat
  advanced : Bool
  deriving DecidableEq, Repr

/-- One iteration of `Executor::run` (executor.rs lines 1089-1184) at height
`height`: steal the confirmed slot's fields (leaving the slot present but
emptied), execute the block, then either commit (remove the height from
`confirmed` and every executed hash from `txs`) or restore the original
`BlockInfo` at the same height and stop. `fork` abstracts the store value
produced by the block execution. -/
def run_iteration (env : ExecBlockEnv) (pool : Pool) (store fork : Nat)
    (height : Nat) : RunStepResult :=
  match alFind pool.confirmed height with
  | some info =>
      match info.txs_hashes with
      | some hashes =>
          let stolen : BlockInfo :=
            { hash := info.hash, validator := none, signature := none,
              txs_hashes := some [], timestamp := 0 }
          let pool1 := { pool with confirmed := alInsert pool.confirmed height stolen }
          match exec_block env info.hash (info.validator.isSome && info.signature.isSome)
              store fork with
          | (.ok _, store1) =>
              ({ pool :=
                  { pool1 with
                      confirmed := alRemove pool1.confirmed height,
                      txs := hashes.foldl alRemove pool1.txs },
                 store := store1, advanced := true })
          | (.error _, store1) =>
              ({ pool := { pool1 with confirmed := alInsert pool1.confirmed height info },
                 store := store1, advanced := false })
      | none => { pool := pool, store := store, advanced := false }
  | none => { pool := pool, store := store, advanced := false }

/-! ## Dispatcher: block ingest routing (`src/blockchain/dispatcher.rs`) -/

/-- The action `Dispatcher::get_block_res_handler` takes on an incoming
block. -/
inductive BlockIngestAction where
  | insertConfirmed
  | startAligner
  | feedAligner
  | ignore
  deriving DecidableEq, Repr

/-- Routing decision of `Dispatcher::get_block_res_handler` (dispatcher.rs
lines 376-454): `local_last` is the height of the local tip block (if any),
`height` the incoming block's height, `aligner_idle` the aligner status flag
(`true` = idle). `missing_headers.start` is `local_tip + 1` (or `0` with no
local block); the insert branch requires `start + 1 == height` with the
aligner idle, otherwise `start ≤ height` starts or feeds the aligner. -/
def get_block_res_action (local_last : Option Nat) (height : Nat)
    (aligner_idle : Bool) : BlockIngestAction :=
  let start : Nat := match local_last with
    | some t => t + 1
    | none => 0
  if start + 1 = height ∧ aligner_idle = true then .insertConfirmed
  else if start ≤ height then
    (if aligner_idle then .startAligner else .feedAligner)
  else .ignore

/-! ## Aligner: consensus selection (`src/blockchain/aligner.rs` lines 166-196) -/

/-- Stable insertion by a `Nat` key: the new element goes after all existing
elements with keys less than or equal to its own (models the stable
`sort_by_key` of Rust's standard library when built by a left fold). -/
def insertByKey {α : Type} (key : α → Nat) (x : α) : List α → List α
  | [] => [x]
  | y :: ys => if key y ≤ key x then y :: insertByKey key x ys else x :: y :: ys

/-- Stable ascending sort by a `Nat` key (model of `sort_by_key`). -/
def sortByKey {α : Type} (key : α → Nat) (l : List α) : List α :=
  l.foldl (fun acc x => insertByKey key x acc) []

/-- Grouping of peer responses `(advertised hash, height)` into
`(hash, (occurrences, height))` entries, in first-occurrence order (models
the `HashMap<String, (i64, u64)>` accumulation loop; the height of a group
is the last height seen for that hash, as in the code). -/
def group_responses (rs : List (Nat × Nat)) : List (Nat × Nat × Nat) :=
  rs.foldl
    (fun acc r =>
      if (acc.find? (fun e => e.1 = r.1)).isSome then
        acc.map (fun e => if e.1 = r.1 then (e.1, e.2.1 + 1, r.2) else e)
      else acc ++ [(r.1, 1, r.2)])
    []

/-- `LATEST_WINDOW` (aligner.rs line 46). -/
def LATEST_WINDOW : Nat := 5

/-- Consensus-selection step of `Aligner::run_async` (aligner.rs lines
166-196): group the responses by advertised hash, drop blacklisted hashes,
sort by occurrence count ascending, truncate to the first `LATEST_WINDOW`
entries when longer, sort by height ascending and pick the last entry's
hash. -/
def select_most_common_block (rs : List (Nat × Nat)) (blacklist : List Nat) :
    Option Nat :=
  let sorted_blocks := (group_responses rs).filter (fun e => ¬ e.1 ∈ blacklist)
  let sorted_blocks := sortByKey (fun e => e.2.1) sorted_blocks
  let sorted_blocks :=
    if LATEST_WINDOW < sorted_blocks.length then sorted_blocks.take LATEST_WINDOW
    else sorted_blocks
  let sorted_blocks := sortByKey (fun e => e.2.2) sorted_blocks
  (sorted_blocks.getLast?).map (fun e => e.1)

/-- Modelled from the spec: §4.4 step 3, "groups responses by block-hash;
takes the top K (default 5) most frequent, then picks the one with the
greatest height. Hashes previously blacklisted are excluded." The top-K
most frequent are the last K of the ascending occurrence sort. -/
def spec_select_most_common_block (rs : List (Nat × Nat)) (blacklist : List Nat) :
    Option Nat :=
  let candidates := (group_responses rs).filter (fun e => ¬ e.1 ∈ blacklist)
  let byCount := sortByKey (fun e => e.2.1) candidates
  let topK :=
    if LATEST_WINDOW < byCount.length
    then byCount.drop (byCount.length - LATEST_WINDOW)
    else byCount
  ((sortByKey (fun e => e.2.2) topK).getLast?).map (fun e => e.1)

/-! ## Dispatcher: packed-message dispatch (`src/blockchain/dispatcher.rs`
lines 531-668) -/

/-- The wire-facing message union (`Message` in blockchain/message.rs), at
the granularity needed by the packed-dispatch path: the recursive `Packed`
envelope, the `Exception` carrier, and the remaining (non-recursive)
variants collapsed into representative constructors whose handlers are
abstracted. -/
inductive Msg where
  | putTransactionRequest (confirm : Bool) (txh : Nat)
  | putTransactionResponse (hash : Nat)
  | exception (e : ErrorT)
  | packed (buf : List Nat)
  | plain (tag : Nat)
  deriving DecidableEq, Repr

/-- `MultiMessage`: a packed payload decodes into a single message or a
sequence of messages. -/
inductive MultiMsg where
  | simple (m : Msg)
  | sequence (ms : List Msg)
  deriving DecidableEq, Repr

/-- `MAX_PACK_LEVEL` (dispatcher.rs line 539). -/
def MAX_PACK_LEVEL : Nat := 32

/-- `ARRAY_HIGH_NIBBLE` (dispatcher.rs line 538). -/
def ARRAY_HIGH_NIBBLE : Nat := 0x90

section PackedDispatch

/- MessagePack decoding (`rmp_deserialize` over `MultiMessage`) and
encoding (`rmp_serialize`) live in `base/serialize.rs`, outside the
embedded modules; they enter the model as parameters, as does the handling
of the non-`Packed` message variants (the individual request handlers). -/
variable (decode : List Nat → Option MultiMsg) (encode : MultiMsg → List Nat)
  (basic : Msg → Option Msg)

mutual

/-- `Dispatcher::packed_message_handler` (dispatcher.rs lines 531-581):
refuse nesting levels at or above `MAX_PACK_LEVEL`; reject first bytes
failing the anonymous-format bit test with a `MalformedData` exception
(returned unwrapped); otherwise decode, dispatch the message or the
sequence, and re-pack any response. -/
def packed_message_handler (buf : List Nat) (pack_level : Nat) : Option Msg :=
  if MAX_PACK_LEVEL ≤ pack_level then none
  else
    let tag := buf.headD 0
    if (tag &&& ARRAY_HIGH_NIBBLE) ≠ ARRAY_HIGH_NIBBLE then
      some (.exception { kind := .malformedData,
                         msg := "expected anonymous serialization format" })
    else
      let res : Option MultiMsg :=
        match decode buf with
        | some (.simple req) =>
            (message_handler req pack_level).map .simple
        | some (.sequence reqs) =>
            match handle_sequence reqs pack_level with
            | [] => none
            | rs => some (.sequence rs)
        | none => some (.simple (.exception { kind := .malformedData, msg := "" }))
      res.map (fun r => .packed (encode r))
termination_by (MAX_PACK_LEVEL - pack_level, 2, 0)

/-- The response-collection loop over a decoded message sequence
(dispatcher.rs lines 559-570). -/
def handle_sequence (reqs : List Msg) (pack_level : Nat) : List Msg :=
  match reqs with
  | [] => []
  | r :: rest =>
      match message_handler r pack_level with
      | some res => res :: handle_sequence rest pack_level
      | none => handle_sequence rest pack_level
termination_by (MAX_PACK_LEVEL - pack_level, 1, reqs.length)

/-- `Dispatcher::message_handler` (dispatcher.rs lines 583-668): a `Packed`
message recurses into `packed_message_handler` at the next nesting level
(which produces nothing once the level bound is reached); every other variant
is handled by its individual handler, abstracted by `basic`. -/
def message_handler (req : Msg) (pack_level : Nat) : Option Msg :=
  match req with
  | .packed buf =>
      if pack_level < MAX_PACK_LEVEL then packed_message_handler buf (pack_level + 1)
      else none
  | m => basic m
termination_by (MAX_PACK_LEVEL - pack_level, 0, 0)

end

end PackedDispatch

/-! ## Transaction data model and signatures (`src/base/schema.rs`) -/

/-- `TransactionDataV1` (schema.rs lines 28-49): the payload of unit and
bulk-root transactions. Public keys are abstracted to numeric ids. -/
structure TxDataV1 where
  schema : String
  account : String
  fuel_limit : Nat
  nonce : List Nat
  network : String
  contract : Option Nat
  method : String
  caller : Nat
  args : List Nat
  deriving DecidableEq, Repr

/-- `TransactionDataBulkNodeV1` (schema.rs lines 53-76): the V1 fields plus
the hash of the bulk root this node depends on. -/
structure TxDataBulkNodeV1 where
  schema : String
  account : String
  fuel_limit : Nat
  nonce : List Nat
  network : String
  contract : Option Nat
  method : String
  caller : Nat
  args : List Nat
  depends_on : Nat
  deriving DecidableEq, Repr

mutual

/-- `TransactionData` (schema.rs lines 96-105): tagged variant of the
transaction payloads. -/
inductive TransactionData where
  | V1 (d : TxDataV1)
  | BulkNodeV1 (d : TxDataBulkNodeV1)
  | BulkRootV1 (d : TxDataV1)
  | BulkV1 (schema : String) (txs : BulkTransactions)

/-- `BulkTransactions` (schema.rs lines 80-84): the root (an unsigned
transaction) plus the optional list of node transactions. -/
inductive BulkTransactions where
  | mk (root : UnsignedTransaction) (nodes : Option (List Transaction))

/-- `UnsignedTransaction` (schema.rs lines 380-383). -/
inductive UnsignedTransaction where
  | mk (data : TransactionData)

/-- `Transaction` (schema.rs lines 398-403); the constructor spelling
follows the source. -/
inductive Transaction where
  | UnitTransaction (data : TransactionData) (signature : List Nat)
  | BullkTransaction (data : TransactionData) (signature : List Nat)

end

/-- Modelled from the spec: the crypto module (`crypto/sign.rs`) is not
among the sources; its key pairs are abstracted to a numeric secret id
whose paired public key is the same id. -/
def publicKey (kp : Nat) : Nat := kp

/-- Modelled from the spec: an ideal signature over a byte string — §8
demands `verify(pk, data, sign(sk, data)) = ok` and failure on any byte
flip, which the pair (signer id, signed bytes) realizes. -/
def idealSign (kp : Nat) (data : List Nat) : List Nat := kp :: data

/-- Modelled from the spec: ideal signature verification — the signature
must be exactly the one the paired key produces over these bytes. -/
def pkVerify (pk : Nat) (data sig : List Nat) : Bool := decide (sig = pk :: data)

/-- Length-prefixed encoding of a string field (canonical encodings are
injective per the round-trip law of §8). -/
def strE (s : String) : List Nat := (strBytes s).length :: strBytes s

/-- Length-prefixed encoding of a byte-string field. -/
def bytesE (b : List Nat) : List Nat := b.length :: b

/-- Encoding of an optional hash field. -/
def optE : Option Nat → List Nat
  | none => [0]
  | some n => [1, n]

/-- Modelled from the spec: canonical (struct-level) encoding of
`TransactionDataV1`, as signed by `TransactionDataV1::sign`; the leading 9
models the MessagePack fixarray head of the nine-field struct. -/
def encV1 (d : TxDataV1) : List Nat :=
  9 :: (strE d.schema ++ strE d.account ++ [d.fuel_limit] ++ bytesE d.nonce ++
    strE d.network ++ optE d.contract ++ strE d.method ++ [d.caller] ++ bytesE d.args)

/-- Modelled from the spec: canonical encoding of
`TransactionDataBulkNodeV1` (ten fields, hence the leading 10). -/
def encNode (d : TxDataBulkNodeV1) : List Nat :=
  10 :: (strE d.schema ++ strE d.account ++ [d.fuel_limit] ++ bytesE d.nonce ++
    strE d.network ++ optE d.contract ++ strE d.method ++ [d.caller] ++
    bytesE d.args ++ [d.depends_on])

mutual

/-- Modelled from the spec: canonical encoding of the `TransactionData`
enum (variant tag followed by the payload), used for hashing. -/
def encTD : TransactionData → List Nat
  | .V1 d => 0 :: encV1 d
  | .BulkNodeV1 d => 1 :: encNode d
  | .BulkRootV1 d => 2 :: encV1 d
  | .BulkV1 s txs => 3 :: encBulkStruct s txs

/-- Modelled from the spec: canonical (struct-level) encoding of
`TransactionDataBulkV1` (two fields, hence the leading 2), as signed by
`TransactionDataBulkV1::sign`. -/
def encBulkStruct (s : String) (txs : BulkTransactions) : List Nat :=
  2 :: (strE s ++ encBulkTxs txs)

/-- Encoding of `BulkTransactions`. -/
def encBulkTxs : BulkTransactions → List Nat
  | .mk root nodes => encUnsignedTx root ++ encNodesOpt nodes

/-- Encoding of `UnsignedTransaction`. -/
def encUnsignedTx : UnsignedTransaction → List Nat
  | .mk data => encTD data

/-- Encoding of the optional node list. -/
def encNodesOpt : Option (List Transaction) → List Nat
  | none => [0]
  | some l => 1 :: l.length :: encTxList l

/-- Encoding of a node-transaction list. -/
def encTxList : List Transaction → List Nat
  | [] => []
  | t :: ts => encTx t ++ encTxList ts

/-- Encoding of a `Transaction`. -/
def encTx : Transaction → List Nat
  | .UnitTransaction data sig => 0 :: (encTD data ++ bytesE sig)
  | .BullkTransaction data sig => 1 :: (encTD data ++ bytesE sig)

end

/-- Multihash-abstracted digest of a byte string. -/
def listHash (l : List Nat) : Nat :=
  l.foldl (fun a b => a * 1000003 + (b + 1)) 7

/-- `primary_hash` of a transaction payload: digest of its canonical
enum-level encoding (`hash(x) = digest(encode(x))`, §3). -/
def hashTD (td : TransactionData) : Nat := listHash (encTD td)

/-- `TransactionData::get_caller` (schema.rs lines 144-151): the submitter
public key; for `BulkV1` the caller of the bulk root. -/
def getCaller : TransactionData → Nat
  | .V1 d => d.caller
  | .BulkNodeV1 d => d.caller
  | .BulkRootV1 d => d.caller
  | .BulkV1 _ (.mk (.mk data) _) => getCaller data

/-- `TransactionData::get_network` (schema.rs lines 152-159). -/
def getNetwork : TransactionData → String
  | .V1 d => d.network
  | .BulkNodeV1 d => d.network
  | .BulkRootV1 d => d.network
  | .BulkV1 _ (.mk (.mk data) _) => getNetwork data

/-- `TransactionData::get_dependency` (schema.rs lines 192-200). -/
def getDependency : TransactionData → Except ErrKind Nat
  | .BulkNodeV1 d => .ok d.depends_on
  | _ => .error .notImplemented

/-- `TransactionData::sign` (schema.rs lines 109-119): `V1`, `BulkNodeV1`
and `BulkV1` sign their struct-level canonical encoding with the keypair;
`BulkRootV1` is not implemented. -/
def tdSign : TransactionData → Nat → Except ErrKind (List Nat)
  | .V1 d, kp => .ok (idealSign kp (encV1 d))
  | .BulkNodeV1 d, kp => .ok (idealSign kp (encNode d))
  | .BulkV1 s txs, kp => .ok (idealSign kp (encBulkStruct s txs))
  | .BulkRootV1 _, _ => .error .notImplemented

/-- Node loop of `TransactionDataBulkV1::verify` (schema.rs lines 291-311):
each node must be a `UnitTransaction` whose data is `BulkNodeV1`, and that
node data is verified against the same public key and the same (bulk)
signature; a node failure surfaces as `InvalidSignature`. -/
def verifyNodes (pk : Nat) (sig : List Nat) : List Transaction → Except ErrKind Unit
  | [] => .ok ()
  | t :: ts =>
      match t with
      | .UnitTransaction data _ =>
          match data with
          | .BulkNodeV1 d =>
              if pkVerify pk (encNode d) sig then verifyNodes pk sig ts
              else .error .invalidSignature
          | _ => .error .wrongTxType
      | .BullkTransaction _ _ => .error .wrongTxType

/-- `TransactionData::verify` (schema.rs lines 121-131 together with the
per-struct verifiers, lines 236-242, 268-274 and 288-315). -/
def tdVerify : TransactionData → Nat → List Nat → Except ErrKind Unit
  | .V1 d, pk, sig =>
      if pkVerify pk (encV1 d) sig then .ok () else .error .invalidSignature
  | .BulkNodeV1 d, pk, sig =>
      if pkVerify pk (encNode d) sig then .ok () else .error .invalidSignature
  | .BulkRootV1 _, _, _ => .error .notImplemented
  | .BulkV1 s txs, pk, sig =>
      if pkVerify pk (encBulkStruct s txs) sig then
        match txs with
        | .mk _ nodes =>
            match nodes with
            | some ns => verifyNodes pk sig ns
            | none => .ok ()
      else .error .invalidSignature

/-- Node loop of `TransactionDataBulkV1::check_integrity` (schema.rs lines
326-364): every node must be a unit transaction carrying a dependency hash
equal to the root hash and the root's network. -/
def checkNodesIntegrity (rootHash : Nat) (network : String) :
    List Transaction → Except ErrKind Unit
  | [] => .ok ()
  | t :: ts =>
      match t with
      | .UnitTransaction data _ =>
          match getDependency data with
          | .ok dep =>
              if dep ≠ rootHash then .error .brokenIntegrity
              else if getNetwork data ≠ network then .error .brokenIntegrity
              else checkNodesIntegrity rootHash network ts
          | .error e => .error e
      | .BullkTransaction _ _ => .error .wrongTxType

/-- `TransactionDataBulkV1::check_integrity` (schema.rs lines 318-365). -/
def bulkCheckIntegrity (txs : BulkTransactions) : Except ErrKind Unit :=
  match txs with
  | .mk (.mk rootData) nodes =>
      match nodes with
      | some ns => checkNodesIntegrity (hashTD rootData) (getNetwork rootData) ns
      | none => .ok ()

/-! ## Theorems settling the claims -/

/-- C4 counterexample: with consumed wasm fuel 1 the translation returns
the global constant `FUEL_LIMIT` (1000), not the transaction's own
`fuel_limit` — e.g. not 7, the limit of a transaction with `fuel_limit`
7. -/
theorem C4_fuel_translation_counterexample :
    calculate_burned_fuel 1 = FUEL_LIMIT ∧ calculate_burned_fuel 1 ≠ 7 := by
  decide

/-- C4 (amended): the executor's wasm-to-TRINCI fuel translation returns 0
when the consumed wasm fuel is 0, and otherwise the global constant
`FUEL_LIMIT`, independent of the transaction. -/
theorem C4_fuel_translation (wm_fuel : Nat) (h : wm_fuel ≠ 0) :
    calculate_burned_fuel wm_fuel = FUEL_LIMIT ∧ calculate_burned_fuel 0 = 0 := by
  constructor
  · simp [calculate_burned_fuel, h]
  · simp [calculate_burned_fuel]

/-- C4 witness: the amended theorem at consumed wasm fuel 5. -/
theorem C4_fuel_translation_witness :
    calculate_burned_fuel 5 = FUEL_LIMIT ∧ calculate_burned_fuel 0 = 0 :=
  C4_fuel_translation 5 (by decide)

/-- C2: with local tip at height 10 and the aligner idle, an incoming block
of height 11 (exactly tip + 1) makes the dispatcher start the aligner, not
insert into the confirmed pool; the insert branch fires at height 12
(tip + 2) instead — the routing condition `missing_headers.start + 1 ==
height` is off by one with respect to the claim and the code's own comment
about the "next block". -/
theorem C2_next_block_routing :
    get_block_res_action (some 10) 11 true = .startAligner ∧
    get_block_res_action (some 10) 11 true ≠ .insertConfirmed ∧
    get_block_res_action (some 10) 12 true = .insertConfirmed := by
  decide

/-- C3 failing input: six distinct advertised hashes 1..6, where hash `i`
is advertised by `i` peers and has height `10 + i`. -/
def c3_responses : List (Nat × Nat) :=
  [(1, 11), (2, 12), (2, 12), (3, 13), (3, 13), (3, 13), (4, 14), (4, 14),
   (4, 14), (4, 14), (5, 15), (5, 15), (5, 15), (5, 15), (5, 15), (6, 16),
   (6, 16), (6, 16), (6, 16), (6, 16), (6, 16)]

/-- C3: on the failing input the selection sorts by occurrence count
ascending and keeps the FIRST five entries — the five least frequent
hashes — so it picks hash 5 and discards the most frequent hash 6, while
the specified "top 5 most frequent, then greatest height" selection picks
hash 6. -/
theorem C3_selection_keeps_least_frequent :
    select_most_common_block c3_responses [] = some 5 ∧
    spec_select_most_common_block c3_responses [] = some 6 ∧
    select_most_common_block c3_responses [] ≠
      spec_select_most_common_block c3_responses [] := by
  decide

/-- C1: whenever a transaction execution reaches a configured (non-empty)
burn-fuel method and the method's call reports `success = false`, or the
fuel to burn exceeds the transaction's fuel limit, the burn phase rolls the
fork back, invokes the burn method again for the amount reported by the
first call, and produces a receipt with `success = false` and returns equal
to the bytes of "error burning fuel", preserving the events of the receipt
produced before the failure. -/
theorem C1_burn_fuel_failure (burn_fuel_method : String) (call : Nat → WmCallResult)
    (args : BurnFuelArgs) (receipt : Receipt)
    (hm : burn_fuel_method ≠ "")
    (hfail : (∃ r, call (burnCallAmount args) = .ok r ∧ r.success = false) ∨
      args.fuel_limit < args.fuel_to_burn) :
    (exec_transaction_burn burn_fuel_method call args receipt).rolledBack = true ∧
    (exec_transaction_burn burn_fuel_method call args receipt).receipt.success = false ∧
    (exec_transaction_burn burn_fuel_method call args receipt).receipt.returns =
      strBytes "error burning fuel" ∧
    (exec_transaction_burn burn_fuel_method call args receipt).receipt.events =
      receipt.events ∧
    (exec_transaction_burn burn_fuel_method call args receipt).retryCallArg =
      some (try_burn_fuel burn_fuel_method call args).2 := by
  have hres : (try_burn_fuel burn_fuel_method call args).1 = false := by
    unfold try_burn_fuel
    rcases hfail with ⟨r, hc, hs⟩ | hlim
    · simp [hm, hc, hs]
    · cases hc : call (burnCallAmount args) with
      | ok r => simp [hm, hc, hlim]
      | okUndecodable => simp [hm, hc]
      | err => simp [hm, hc]
  simp [exec_transaction_burn, hres]

/-- C1 witness: the theorem at a concrete failing burn call (the burn
method reports `success = false` with 3 units). -/
theorem C1_burn_fuel_failure_witness :
    (exec_transaction_burn "burn_fuel_method" (fun _ => .ok ⟨false, 3⟩)
        ⟨1, 5, 10⟩ ⟨0, 0, 0, true, [], some []⟩).rolledBack = true ∧
    (exec_transaction_burn "burn_fuel_method" (fun _ => .ok ⟨false, 3⟩)
        ⟨1, 5, 10⟩ ⟨0, 0, 0, true, [], some []⟩).receipt.success = false ∧
    (exec_transaction_burn "burn_fuel_method" (fun _ => .ok ⟨false, 3⟩)
        ⟨1, 5, 10⟩ ⟨0, 0, 0, true, [], some []⟩).receipt.returns =
      strBytes "error burning fuel" ∧
    (exec_transaction_burn "burn_fuel_method" (fun _ => .ok ⟨false, 3⟩)
        ⟨1, 5, 10⟩ ⟨0, 0, 0, true, [], some []⟩).receipt.events =
      (⟨0, 0, 0, true, [], some []⟩ : Receipt).events ∧
    (exec_transaction_burn "burn_fuel_method" (fun _ => .ok ⟨false, 3⟩)
        ⟨1, 5, 10⟩ ⟨0, 0, 0, true, [], some []⟩).retryCallArg =
      some (try_burn_fuel "burn_fuel_method" (fun _ => .ok ⟨false, 3⟩) ⟨1, 5, 10⟩).2 :=
  C1_burn_fuel_failure "burn_fuel_method" (fun _ => .ok ⟨false, 3⟩)
    ⟨1, 5, 10⟩ ⟨0, 0, 0, true, [], some []⟩ (by decide)
    (Or.inl ⟨⟨false, 3⟩, rfl, rfl⟩)

/-- Always-failing MessagePack decoder: a buffer like `[0xB0]` (a truncated
fixstr head) is not a valid encoding of any message. -/
def decodeFailAll : List Nat → Option MultiMsg := fun _ => none

/-- Trivial re-pack encoder used to instantiate the dispatch model. -/
def encodeZero : MultiMsg → List Nat := fun _ => []

/-- Trivial non-packed handler used to instantiate the dispatch model. -/
def basicNone : Msg → Option Msg := fun _ => none

/-- C8: packed dispatch is depth-bounded — at any nesting level of
`MAX_PACK_LEVEL` (32) or more the handler produces no response instead of
recursing, for every input buffer and every decoder, encoder and
non-packed handler. (The handler is moreover a total function of the
model, so packed dispatch terminates on every input.) -/
theorem C8_pack_level_bound (decode : List Nat → Option MultiMsg)
    (encode : MultiMsg → List Nat) (basic : Msg → Option Msg)
    (buf : List Nat) (pack_level : Nat) (h : MAX_PACK_LEVEL ≤ pack_level) :
    packed_message_handler decode encode basic buf pack_level = none := by
  rw [packed_message_handler]
  simp [h]

/-- C8 witness: the theorem at nesting level 32 on a one-byte buffer. -/
theorem C8_pack_level_bound_witness :
    packed_message_handler decodeFailAll encodeZero basicNone [0x90] 32 = none :=
  C8_pack_level_bound decodeFailAll encodeZero basicNone [0x90] 32 (by decide)

/-- C9 counterexample: the first byte `0xB0` has high nibble 11, not the
MessagePack array tag 9, yet it passes the dispatcher's bit test
`(tag & 0x90) == 0x90`; with a decoder that (correctly) fails on this
buffer the response is a re-packed generic `MalformedData` exception, not
the "expected anonymous serialization format" exception the claim
requires for every non-array first byte. -/
theorem C9_non_array_byte_counterexample :
    (0xB0 : Nat) / 16 ≠ 9 ∧
    packed_message_handler decodeFailAll encodeZero basicNone [0xB0] 0 =
      some (.packed []) ∧
    packed_message_handler decodeFailAll encodeZero basicNone [0xB0] 0 ≠
      some (.exception { kind := .malformedData,
                         msg := "expected anonymous serialization format" }) := by
  have hb : (0xB0 : Nat) &&& ARRAY_HIGH_NIBBLE = ARRAY_HIGH_NIBBLE := by decide
  refine ⟨by decide, ?_, ?_⟩ <;>
    · rw [packed_message_handler]
      simp [decodeFailAll, encodeZero, MAX_PACK_LEVEL, hb]

set_option maxRecDepth 4000 in
/-- C9 (amended): the dispatcher's anonymous-format gate tests the bits of
the array tag, `(first_byte & 0x90) == 0x90`, not the high nibble itself:
every payload whose first byte fails that bit test — in particular every
named-map encoding `0x80..0x8F` — is answered (below the nesting bound)
with the `MalformedData` exception "expected anonymous serialization
format" and is not dispatched; first bytes with both bits set but a
non-array high nibble (such as `0xB0`) pass the gate instead. -/
theorem C9_anonymous_format_gate :
    (∀ (decode : List Nat → Option MultiMsg) (encode : MultiMsg → List Nat)
      (basic : Msg → Option Msg) (buf : List Nat) (pack_level : Nat),
      pack_level < MAX_PACK_LEVEL →
      (buf.headD 0) &&& ARRAY_HIGH_NIBBLE ≠ ARRAY_HIGH_NIBBLE →
      packed_message_handler decode encode basic buf pack_level =
        some (.exception { kind := .malformedData,
                           msg := "expected anonymous serialization format" })) ∧
    (∀ b : Nat, b < 256 → b / 16 = 8 → b &&& ARRAY_HIGH_NIBBLE ≠ ARRAY_HIGH_NIBBLE) := by
  constructor
  · intro decode encode basic buf pack_level hlev htag
    rw [List.headD_eq_head?] at htag
    rw [packed_message_handler]
    simp [Nat.not_le.mpr hlev, htag]
  · decide

/-- C9 witness for the amended theorem: a one-byte named-map payload
(`0x85`, a fixmap head) at nesting level 0 receives the specific
malformed-format exception. -/
theorem C9_anonymous_format_gate_witness :
    packed_message_handler decodeFailAll encodeZero basicNone [0x85] 0 =
      some (.exception { kind := .malformedData,
                         msg := "expected anonymous serialization format" }) :=
  C9_anonymous_format_gate.1 decodeFailAll encodeZero basicNone [0x85] 0
    (by decide) (by decide)

/-- C10: when a submitted transaction passes the size, signature,
integrity, network and store-duplicate checks, then (a) if the pool's
`txs` map holds its hash with no body (an alignment placeholder), the body
is stored into the existing slot, the hash is returned successfully and the
unconfirmed queue — which the hash is not appended to — plus the confirmed
map stay unchanged; and (b) if a full body is already present, the pool is
unchanged and the error is `DuplicatedUnconfirmedTx` exactly when the hash
is in the unconfirmed queue and `DuplicatedConfirmedTx` otherwise. -/
theorem C10_placeholder_fill (checks : PutChecks) (pool : Pool) (tx : PoolTx)
    (hsize : checks.sizeOk = true) (hver : checks.verifyOk = true)
    (hint : checks.integrityOk = true) (hnet : checks.networkOk = true)
    (hdb : checks.inDb = false) :
    (alFind pool.txs tx.phash = some none →
      put_transaction_internal checks pool tx =
        (.ok tx.phash,
          { txs := alInsert pool.txs tx.phash (some tx),
            unconfirmed := pool.unconfirmed, confirmed := pool.confirmed })) ∧
    (∀ b, alFind pool.txs tx.phash = some (some b) →
      put_transaction_internal checks pool tx =
        (if tx.phash ∈ pool.unconfirmed then (.error .duplicatedUnconfirmedTx, pool)
         else (.error .duplicatedConfirmedTx, pool))) := by
  constructor
  · intro hfind
    simp [put_transaction_internal, hsize, hver, hint, hnet, hdb, hfind]
  · intro b hfind
    simp [put_transaction_internal, hsize, hver, hint, hnet, hdb, hfind]

/-- C10 witness: the theorem at a pool holding a body-less placeholder for
hash 4 and a full body for hash 9 (with 9 absent from the unconfirmed
queue). -/
theorem C10_placeholder_fill_witness :
    (alFind (Pool.mk [(4, none), (9, some ⟨9, 0⟩)] [] []).txs (4 : Nat) = some none →
      put_transaction_internal ⟨true, true, true, true, false⟩
          (Pool.mk [(4, none), (9, some ⟨9, 0⟩)] [] []) ⟨4, 1⟩ =
        (.ok (4 : Nat),
          { txs := alInsert [(4, none), (9, some ⟨9, 0⟩)] 4 (some ⟨4, 1⟩),
            unconfirmed := [], confirmed := [] })) ∧
    (∀ b, alFind (Pool.mk [(4, none), (9, some ⟨9, 0⟩)] [] []).txs (4 : Nat) =
        some (some b) →
      put_transaction_internal ⟨true, true, true, true, false⟩
          (Pool.mk [(4, none), (9, some ⟨9, 0⟩)] [] []) ⟨4, 1⟩ =
        (if (4 : Nat) ∈ (Pool.mk [(4, none), (9, some ⟨9, 0⟩)] [] []).unconfirmed
         then (.error .duplicatedUnconfirmedTx, Pool.mk [(4, none), (9, some ⟨9, 0⟩)] [] [])
         else (.error .duplicatedConfirmedTx,
           Pool.mk [(4, none), (9, some ⟨9, 0⟩)] [] []))) :=
  C10_placeholder_fill ⟨true, true, true, true, false⟩
    (Pool.mk [(4, none), (9, some ⟨9, 0⟩)] [] []) ⟨4, 1⟩ rfl rfl rfl rfl rfl

theorem alFind_insert_insert {α : Type} (m : List (Nat × α)) (k : Nat) (v1 v2 : α) :
    alFind (alInsert (alInsert m k v1) k v2) k = some v2 :=
  alFind_insert_self _ _ _

/-- When the signature and validator checks pass but the expected hash
differs from the computed one, or the merge fails, `exec_block` returns an
error and the main store is untouched. -/
theorem exec_block_error_of_fail (env : ExecBlockEnv) (expHash : Option Nat)
    (checked : Bool) (store fork : Nat)
    (hsig : env.sigOk = true) (hval : env.validatorOk = true)
    (hfail : (∃ e, expHash = some e ∧ e ≠ env.computedHash) ∨ env.mergeOk = false) :
    ∃ m, exec_block env expHash checked store fork = (.error m, store) := by
  unfold exec_block
  rcases hfail with ⟨e, he, hne⟩ | hm
  · subst he
    simp [hsig, hval, hne]
  · cases expHash with
    | some e =>
        by_cases hc : e = env.computedHash
        · simp [hsig, hval, hc, hm]
        · simp [hsig, hval, hc, hm]
    | none => simp [hsig, hval, hm]

/-- C6: when block execution fails — the expected block hash differs from
the locally computed one, or the store merge fails — the executor restores
the taken `BlockInfo` unchanged at the same height, the pool's `txs` and
`unconfirmed` are untouched, the main store is unchanged, and the run loop
stops advancing. -/
theorem C6_failed_block_restores_pool (env : ExecBlockEnv) (pool : Pool)
    (store fork height : Nat) (info : BlockInfo) (hs : List Nat)
    (hfound : alFind pool.confirmed height = some info)
    (hhs : info.txs_hashes = some hs)
    (hsig : env.sigOk = true) (hval : env.validatorOk = true)
    (hfail : (∃ e, info.hash = some e ∧ e ≠ env.computedHash) ∨ env.mergeOk = false) :
    (run_iteration env pool store fork height).pool.txs = pool.txs ∧
    (run_iteration env pool store fork height).pool.unconfirmed = pool.unconfirmed ∧
    alFind (run_iteration env pool store fork height).pool.confirmed height =
      some info ∧
    (run_iteration env pool store fork height).store = store ∧
    (run_iteration env pool store fork height).advanced = false := by
  obtain ⟨m, hexec⟩ := exec_block_error_of_fail env info.hash
    (info.validator.isSome && info.signature.isSome) store fork hsig hval hfail
  simp [run_iteration, hfound, hhs, hexec, alFind_insert_insert]

/-- C6 witness: the theorem at a concrete pool whose confirmed slot at
height 3 expects hash 5 while execution computes hash 6 with a failing
merge. -/
theorem C6_failed_block_restores_pool_witness :
    (run_iteration ⟨true, true, 6, false⟩
        (Pool.mk [(7, some ⟨7, 0⟩)] [9] [(3, ⟨some 5, none, none, some [7], 11⟩)])
        100 200 3).pool.txs = (Pool.mk [(7, some ⟨7, 0⟩)] [9]
          [(3, ⟨some 5, none, none, some [7], 11⟩)]).txs ∧
    (run_iteration ⟨true, true, 6, false⟩
        (Pool.mk [(7, some ⟨7, 0⟩)] [9] [(3, ⟨some 5, none, none, some [7], 11⟩)])
        100 200 3).pool.unconfirmed = (Pool.mk [(7, some ⟨7, 0⟩)] [9]
          [(3, ⟨some 5, none, none, some [7], 11⟩)]).unconfirmed ∧
    alFind (run_iteration ⟨true, true, 6, false⟩
        (Pool.mk [(7, some ⟨7, 0⟩)] [9] [(3, ⟨some 5, none, none, some [7], 11⟩)])
        100 200 3).pool.confirmed 3 = some ⟨some 5, none, none, some [7], 11⟩ ∧
    (run_iteration ⟨true, true, 6, false⟩
        (Pool.mk [(7, some ⟨7, 0⟩)] [9] [(3, ⟨some 5, none, none, some [7], 11⟩)])
        100 200 3).store = 100 ∧
    (run_iteration ⟨true, true, 6, false⟩
        (Pool.mk [(7, some ⟨7, 0⟩)] [9] [(3, ⟨some 5, none, none, some [7], 11⟩)])
        100 200 3).advanced = false :=
  C6_failed_block_restores_pool ⟨true, true, 6, false⟩
    (Pool.mk [(7, some ⟨7, 0⟩)] [9] [(3, ⟨some 5, none, none, some [7], 11⟩)])
    100 200 3 ⟨some 5, none, none, some [7], 11⟩ [7]
    (by decide) rfl rfl rfl (Or.inr rfl)

/-- A hash committed to a block: present in the pool's `txs` map (with or
without a body) and absent from the unconfirmed queue. -/
def CommittedHash (p : Pool) (h : Nat) : Prop :=
  (alFind p.txs h).isSome ∧ h ∉ p.unconfirmed

theorem note_block_hash_confirmed (p : Pool) (h : Nat) :
    (note_block_hash p h).confirmed = p.confirmed := rfl

theorem note_block_hash_establishes (p : Pool) (h : Nat) :
    CommittedHash (note_block_hash p h) h := by
  constructor
  · show (alFind (if (alFind p.txs h).isSome then p.txs
      else alInsert p.txs h none) h).isSome = true
    split
    · assumption
    · simp [alFind_insert_self]
  · show h ∉ (if h ∈ p.unconfirmed then p.unconfirmed.filter (fun x => x ≠ h)
      else p.unconfirmed)
    split
    · simp [List.mem_filter]
    · assumption

theorem note_block_hash_preserves (p : Pool) (g h : Nat)
    (hg : CommittedHash p g) : CommittedHash (note_block_hash p h) g := by
  obtain ⟨hfind, hmem⟩ := hg
  constructor
  · show (alFind (if (alFind p.txs h).isSome then p.txs
      else alInsert p.txs h none) g).isSome = true
    split
    · exact hfind
    · by_cases hgh : g = h
      · subst hgh
        simp [alFind_insert_self]
      · rw [alFind_insert_ne p.txs h g none (fun hh => hgh hh.symm)]
        exact hfind
  · show g ∉ (if h ∈ p.unconfirmed then p.unconfirmed.filter (fun x => x ≠ h)
      else p.unconfirmed)
    split
    · intro hmem2
      exact hmem (List.mem_filter.mp hmem2).1
    · exact hmem

theorem note_block_hashes_preserves (hs : List Nat) (g : Nat) :
    ∀ (p : Pool), CommittedHash p g → CommittedHash (note_block_hashes p hs) g := by
  induction hs with
  | nil => intro p hg; exact hg
  | cons a t ih =>
    intro p hg
    show CommittedHash (note_block_hashes (note_block_hash p a) t) g
    exact ih _ (note_block_hash_preserves p g a hg)

theorem note_block_hashes_establishes (hs : List Nat) (h : Nat) :
    ∀ (p : Pool), h ∈ hs → CommittedHash (note_block_hashes p hs) h := by
  induction hs with
  | nil => intro p hmem; cases hmem
  | cons a t ih =>
    intro p hmem
    show CommittedHash (note_block_hashes (note_block_hash p a) t) h
    rcases List.mem_cons.mp hmem with rfl | hmem2
    · exact note_block_hashes_preserves t h _ (note_block_hash_establishes p h)
    · exact ih _ hmem2

theorem note_block_hashes_confirmed (hs : List Nat) :
    ∀ (p : Pool), (note_block_hashes p hs).confirmed = p.confirmed := by
  induction hs with
  | nil => intro p; rfl
  | cons a t ih =>
    intro p
    show (note_block_hashes (note_block_hash p a) t).confirmed = p.confirmed
    rw [ih]
    rfl

theorem put_transaction_internal_confirmed (c : PutChecks) (p : Pool) (t : PoolTx) :
    (put_transaction_internal c p t).2.confirmed = p.confirmed := by
  unfold put_transaction_internal
  split
  · rfl
  · split
    · rfl
    · split
      · rfl
      · split
        · rfl
        · split
          · rfl
          · split <;> try rfl
            split <;> rfl

theorem put_transaction_internal_preserves (c : PutChecks) (p : Pool) (t : PoolTx)
    (g : Nat) (hg : CommittedHash p g) :
    CommittedHash (put_transaction_internal c p t).2 g := by
  obtain ⟨hfind, hmem⟩ := hg
  unfold CommittedHash put_transaction_internal
  split
  · exact ⟨hfind, hmem⟩
  · split
    · exact ⟨hfind, hmem⟩
    · split
      · exact ⟨hfind, hmem⟩
      · split
        · exact ⟨hfind, hmem⟩
        · split
          · exact ⟨hfind, hmem⟩
          · split
            · -- no previous entry: body inserted, hash appended to unconfirmed
              rename_i hnone
              have hne : g ≠ t.phash := by
                intro he
                rw [he] at hfind
                rw [hnone] at hfind
                simp at hfind
              constructor
              · simpa [alFind_insert_ne _ _ _ _ (fun hh => hne hh.symm)] using hfind
              · simp [hmem, hne]
            · -- placeholder filled in place
              constructor
              · by_cases hg2 : g = t.phash
                · subst hg2
                  simp [alFind_insert_self]
                · simpa [alFind_insert_ne _ _ _ _ (fun hh => hg2 hh.symm)] using hfind
              · exact hmem
            · -- duplicate: pool unchanged
              split <;> exact ⟨hfind, hmem⟩

theorem applyPuts_confirmed (ops : List (PutChecks × PoolTx)) :
    ∀ (p : Pool), (applyPuts ops p).confirmed = p.confirmed := by
  induction ops with
  | nil => intro p; rfl
  | cons o t ih =>
    intro p
    show (applyPuts t (put_transaction_internal o.1 p o.2).2).confirmed = p.confirmed
    rw [ih]
    exact put_transaction_internal_confirmed o.1 p o.2

theorem applyPuts_preserves (ops : List (PutChecks × PoolTx)) (g : Nat) :
    ∀ (p : Pool), CommittedHash p g → CommittedHash (applyPuts ops p) g := by
  induction ops with
  | nil => intro p hg; exact hg
  | cons o t ih =>
    intro p hg
    show CommittedHash (applyPuts t (put_transaction_internal o.1 p o.2).2) g
    exact ih _ (put_transaction_internal_preserves o.1 p o.2 g hg)

theorem alFind_foldl_remove_none {α : Type} (hs : List Nat) (m : List (Nat × α))
    (h : Nat) (hnone : alFind m h = none) :
    alFind (hs.foldl alRemove m) h = none := by
  induction hs generalizing m with
  | nil => exact hnone
  | cons a t ih =>
    simp only [List.foldl_cons]
    apply ih
    by_cases ha : a = h
    · subst ha; exact alFind_remove_self m a
    · rw [alFind_remove_ne m a h ha]; exact hnone

theorem alFind_foldl_remove_mem {α : Type} (hs : List Nat) (m : List (Nat × α))
    (h : Nat) (hmem : h ∈ hs) : alFind (hs.foldl alRemove m) h = none := by
  induction hs generalizing m with
  | nil => cases hmem
  | cons a t ih =>
    simp only [List.foldl_cons]
    rcases List.mem_cons.mp hmem with rfl | hmem2
    · exact alFind_foldl_remove_none t _ h (alFind_remove_self m h)
    · exact ih _ hmem2

/-- `exec_block` on the success path: checks pass, the expected hash (when
present) matches the computed one, and the merge succeeds — the fork value
becomes the new store. -/
theorem exec_block_ok (env : ExecBlockEnv) (checked : Bool) (store fork : Nat)
    (hsig : env.sigOk = true) (hval : env.validatorOk = true)
    (hmerge : env.mergeOk = true) :
    exec_block env (some env.computedHash) checked store fork =
      (.ok env.computedHash, fork) := by
  unfold exec_block
  simp [hsig, hval, hmerge]

/-- C5: a block enters the confirmed pool through the ingest update (which
strips its transaction hashes from `unconfirmed` and leaves placeholders in
`txs`); after any interleaved sequence of dispatcher admissions, a
successful executor commit of that height removes the height from
`confirmed`, and no transaction hash named by the block remains in the
pool's `txs` map or in the unconfirmed queue. -/
theorem C5_commit_cleans_pool (p : Pool) (height bhash : Nat)
    (validator : Option Nat) (signature : List Nat) (hashes : List Nat)
    (timestamp : Nat) (ops : List (PutChecks × PoolTx)) (env : ExecBlockEnv)
    (store fork : Nat)
    (hsig : env.sigOk = true) (hval : env.validatorOk = true)
    (hmerge : env.mergeOk = true) (hhash : env.computedHash = bhash) :
    (run_iteration env (applyPuts ops (insert_confirmed_block p height bhash
        validator signature hashes timestamp)) store fork height).advanced = true ∧
    alFind (run_iteration env (applyPuts ops (insert_confirmed_block p height bhash
        validator signature hashes timestamp)) store fork height).pool.confirmed
      height = none ∧
    ∀ h, h ∈ hashes →
      alFind (run_iteration env (applyPuts ops (insert_confirmed_block p height bhash
          validator signature hashes timestamp)) store fork height).pool.txs h =
        none ∧
      h ∉ (run_iteration env (applyPuts ops (insert_confirmed_block p height bhash
          validator signature hashes timestamp)) store fork height).pool.unconfirmed := by
  subst hhash
  have hinfo : alFind (applyPuts ops (insert_confirmed_block p height
      env.computedHash validator signature hashes timestamp)).confirmed height =
      some { hash := some env.computedHash, validator := validator,
             signature := some signature, txs_hashes := some hashes,
             timestamp := timestamp } := by
    rw [applyPuts_confirmed]
    exact alFind_insert_self _ _ _
  have hexec : ∀ c : Bool, exec_block env (some env.computedHash) c store fork =
      (.ok env.computedHash, fork) :=
    fun c => exec_block_ok env c store fork hsig hval hmerge
  refine ⟨?_, ?_, ?_⟩
  · simp [run_iteration, hinfo, hexec]
  · simp [run_iteration, hinfo, hexec, alFind_remove_self]
  · intro h hmem
    have hc : CommittedHash (applyPuts ops (insert_confirmed_block p height
        env.computedHash validator signature hashes timestamp)) h := by
      apply applyPuts_preserves
      exact note_block_hashes_establishes hashes h p hmem
    constructor
    · simp only [run_iteration, hinfo, hexec]
      exact alFind_foldl_remove_mem hashes _ h hmem
    · simp only [run_iteration, hinfo, hexec]
      exact hc.2

/-- C5 witness: the theorem at a concrete scenario — block at height 2
naming hashes 7 and 8 (hash 7 initially unconfirmed with a body, 8 unknown),
followed by one interleaved admission, then a successful commit. -/
theorem C5_commit_cleans_pool_witness :
    (run_iteration ⟨true, true, 42, true⟩ (applyPuts [(⟨true, true, true, true, false⟩, ⟨8, 1⟩)]
        (insert_confirmed_block (Pool.mk [(7, some ⟨7, 0⟩)] [7] []) 2 42 none [9] [7, 8] 5))
        100 200 2).advanced = true ∧
    alFind (run_iteration ⟨true, true, 42, true⟩ (applyPuts [(⟨true, true, true, true, false⟩, ⟨8, 1⟩)]
        (insert_confirmed_block (Pool.mk [(7, some ⟨7, 0⟩)] [7] []) 2 42 none [9] [7, 8] 5))
        100 200 2).pool.confirmed 2 = none ∧
    (alFind (run_iteration ⟨true, true, 42, true⟩ (applyPuts [(⟨true, true, true, true, false⟩, ⟨8, 1⟩)]
        (insert_confirmed_block (Pool.mk [(7, some ⟨7, 0⟩)] [7] []) 2 42 none [9] [7, 8] 5))
        100 200 2).pool.txs 7 = none ∧
      7 ∉ (run_iteration ⟨true, true, 42, true⟩ (applyPuts [(⟨true, true, true, true, false⟩, ⟨8, 1⟩)]
        (insert_confirmed_block (Pool.mk [(7, some ⟨7, 0⟩)] [7] []) 2 42 none [9] [7, 8] 5))
        100 200 2).pool.unconfirmed) ∧
    (alFind (run_iteration ⟨true, true, 42, true⟩ (applyPuts [(⟨true, true, true, true, false⟩, ⟨8, 1⟩)]
        (insert_confirmed_block (Pool.mk [(7, some ⟨7, 0⟩)] [7] []) 2 42 none [9] [7, 8] 5))
        100 200 2).pool.txs 8 = none ∧
      8 ∉ (run_iteration ⟨true, true, 42, true⟩ (applyPuts [(⟨true, true, true, true, false⟩, ⟨8, 1⟩)]
        (insert_confirmed_block (Pool.mk [(7, some ⟨7, 0⟩)] [7] []) 2 42 none [9] [7, 8] 5))
        100 200 2).pool.unconfirmed) :=
  have ht := C5_commit_cleans_pool (Pool.mk [(7, some ⟨7, 0⟩)] [7] []) 2 42 none [9]
    [7, 8] 5 [(⟨true, true, true, true, false⟩, ⟨8, 1⟩)] ⟨true, true, 42, true⟩
    100 200 rfl rfl rfl rfl
  ⟨ht.1, ht.2.1, ht.2.2 7 (by decide), ht.2.2 8 (by decide)⟩

/-- C7 counterexample instance: root payload of a bulk transaction. -/
def c7_root_data : TxDataV1 :=
  { schema := "", account := "", fuel_limit := 0, nonce := [], network := "",
    contract := none, method := "", caller := 7, args := [] }

/-- C7 counterexample instance: the bulk root. -/
def c7_root : TransactionData := .BulkRootV1 c7_root_data

/-- C7 counterexample instance: a well-formed node payload — same network
as the root and `depends_on` equal to the root's hash. -/
def c7_node_data : TxDataBulkNodeV1 :=
  { schema := "", account := "", fuel_limit := 0, nonce := [], network := "",
    contract := none, method := "", caller := 7, args := [],
    depends_on := hashTD c7_root }

/-- C7 counterexample instance: the node, honestly signed by its caller's
keypair over its own canonical encoding. -/
def c7_node : Transaction :=
  .UnitTransaction (.BulkNodeV1 c7_node_data) (idealSign 7 (encNode c7_node_data))

/-- C7 counterexample instance: root plus one node. -/
def c7_bulk_txs : BulkTransactions := .mk (.mk c7_root) (some [c7_node])

/-- C7 counterexample instance: the bulk payload. -/
def c7_bulk : TransactionData := .BulkV1 "" c7_bulk_txs

/-- C7 counterexample: a bulk transaction with one well-formed
`BulkNodeV1` node (it passes `check_integrity`), signed by the bulk
root's caller over the bulk's own canonical encoding, fails verification:
the node loop re-verifies the node data against the bulk's signature, which
can never match. -/
theorem C7_bulk_verify_counterexample :
    bulkCheckIntegrity c7_bulk_txs = .ok () ∧
    tdSign c7_bulk 7 = .ok (idealSign 7 (encBulkStruct "" c7_bulk_txs)) ∧
    getCaller c7_bulk = publicKey 7 ∧
    tdVerify c7_bulk (getCaller c7_bulk)
      (idealSign 7 (encBulkStruct "" c7_bulk_txs)) = .error .invalidSignature := by
  refine ⟨?_, rfl, ?_, ?_⟩
  · simp [bulkCheckIntegrity, c7_bulk_txs, checkNodesIntegrity, c7_node,
      getDependency, getNetwork, c7_node_data, c7_root, c7_root_data]
  · simp [getCaller, c7_bulk, c7_bulk_txs, c7_root, c7_root_data, publicKey]
  · have hcaller : getCaller c7_bulk = 7 := by
      simp [getCaller, c7_bulk, c7_bulk_txs, c7_root, c7_root_data]
    rw [hcaller]
    have hne : ∀ txs2, ¬ encBulkStruct "" txs2 = encNode c7_node_data := by
      intro txs2 hcon
      rw [encBulkStruct, encNode] at hcon
      injection hcon with h1 h2
      exact absurd h1 (by decide)
    simp [c7_bulk, tdVerify, pkVerify, idealSign, c7_bulk_txs, verifyNodes,
      c7_node, hne]

/-- C7 (amended): sign-then-verify succeeds for `V1` payloads, for
`BulkNodeV1` payloads, and for a `BulkV1` whose node list is absent
(verifying against the bulk root's caller); but for every `BulkV1` with a
nonempty node list, verification of the signature produced over the bulk's
own encoding returns an error — the node loop checks the node data against
the bulk's signature itself — so bulk signatures never verify once nodes
are present. `BulkRootV1` signing is not implemented. -/
theorem C7_sign_verify :
    (∀ (kp : Nat) (d : TxDataV1),
      tdSign (.V1 d) kp = .ok (idealSign kp (encV1 d)) ∧
      tdVerify (.V1 d) (publicKey kp) (idealSign kp (encV1 d)) = .ok ()) ∧
    (∀ (kp : Nat) (d : TxDataBulkNodeV1),
      tdSign (.BulkNodeV1 d) kp = .ok (idealSign kp (encNode d)) ∧
      tdVerify (.BulkNodeV1 d) (publicKey kp) (idealSign kp (encNode d)) = .ok ()) ∧
    (∀ (s : String) (d : TxDataV1),
      tdVerify (.BulkV1 s (.mk (.mk (.BulkRootV1 d)) none))
        (getCaller (.BulkV1 s (.mk (.mk (.BulkRootV1 d)) none)))
        (idealSign d.caller (encBulkStruct s (.mk (.mk (.BulkRootV1 d)) none))) =
        .ok ()) ∧
    (∀ (kp : Nat) (s : String) (root : UnsignedTransaction) (t : Transaction)
      (ts : List Transaction),
      ∃ e, tdVerify (.BulkV1 s (.mk root (some (t :: ts)))) (publicKey kp)
        (idealSign kp (encBulkStruct s (.mk root (some (t :: ts))))) = .error e) ∧
    (∀ (kp : Nat) (d : TxDataV1),
      tdSign (.BulkRootV1 d) kp = .error .notImplemented) := by
  refine ⟨?_, ?_, ?_, ?_, ?_⟩
  · intro kp d
    exact ⟨rfl, by simp [tdVerify, pkVerify, idealSign, publicKey]⟩
  · intro kp d
    exact ⟨rfl, by simp [tdVerify, pkVerify, idealSign, publicKey]⟩
  · intro s d
    have hcaller : getCaller (.BulkV1 s (.mk (.mk (.BulkRootV1 d)) none)) =
        d.caller := by
      simp [getCaller]
    rw [hcaller]
    simp [tdVerify, pkVerify, idealSign]
  · intro kp s root t ts
    have hcond : pkVerify (publicKey kp)
        (encBulkStruct s (.mk root (some (t :: ts))))
        (idealSign kp (encBulkStruct s (.mk root (some (t :: ts))))) = true := by
      simp [pkVerify, idealSign, publicKey]
    cases t with
    | UnitTransaction data sig =>
        cases data with
        | BulkNodeV1 d =>
            refine ⟨.invalidSignature, ?_⟩
            have hne : ¬ pkVerify (publicKey kp) (encNode d)
                (idealSign kp (encBulkStruct s (.mk root (some
                  (Transaction.UnitTransaction (.BulkNodeV1 d) sig :: ts))))) = true := by
              simp only [pkVerify, idealSign, publicKey, decide_eq_true_eq]
              intro hcon
              injection hcon with h1 h2
              rw [encBulkStruct, encNode] at h2
              injection h2 with h3 h4
              exact absurd h3 (by decide)
            simp [tdVerify, hcond, verifyNodes, hne]
        | V1 d => exact ⟨.wrongTxType, by simp [tdVerify, hcond, verifyNodes]⟩
        | BulkRootV1 d => exact ⟨.wrongTxType, by simp [tdVerify, hcond, verifyNodes]⟩
        | BulkV1 s2 txs2 => exact ⟨.wrongTxType, by simp [tdVerify, hcond, verifyNodes]⟩
    | BullkTransaction data sig =>
        exact ⟨.wrongTxType, by simp [tdVerify, hcond, verifyNodes]⟩
  · intro kp d
    rfl

end Trinci
